import Mathlib

/-!
Verification of the Exasol challenge client (`src/ExasolClient.cpp`).

The development shallowly embeds the parts of the client that the claims
are about:

* the SHA-1 primitive (`sha1Bytes`), used by both proof-of-work paths and
  the identity-reply hash (`sha1Hex`);
* `check_difficulty` (`checkDifficulty`), with `Option`-returning digest
  indexing so that an out-of-bounds array access shows up as `none`;
* the proof-of-work worker lattice (`workerCounter`) and the publish
  relation of the joined solver (`powPublishes`, `pow2Publishes`);
* the precomputed-state probe `SHA1Precomputed::hash_counter`
  (`hashCounter`), which absorbs the raw little-endian bytes of the
  64-bit counter;
* the protocol state machine of `ExasolClient::communicate` (`step`,
  `runSession`), parametrised by the solver results so that the purely
  protocol-level claims are independent of the search.

Machine integers are modelled as `Nat` with explicit reduction modulo
`2 ^ 32` (SHA-1 words) and `2 ^ 64` (the solver counter).
-/

set_option maxRecDepth 100000

namespace Exasol

/-- `2 ^ 32`, the modulus of the 32-bit words of the SHA-1 core. -/
def WORD : Nat := 4294967296

/-- `2 ^ 64`, the modulus of the solver's `uint64_t` counter. -/
def U64 : Nat := 18446744073709551616

/-- Left-rotation of a 32-bit word (`x < 2 ^ 32`). -/
def rotl32 (n x : Nat) : Nat := (x * 2 ^ n + x / 2 ^ (32 - n)) % WORD

/-- The bytes of a string, as the C++ code sees them (`input.c_str()`).
All strings handled by the client are ASCII. -/
def strBytes (s : String) : List Nat := s.data.map Char.toNat

/-- Big-endian bytes of `x`, exactly `w` of them (SHA-1 length field and
digest serialisation). -/
def beBytes : Nat → Nat → List Nat
  | _, 0 => []
  | x, w + 1 => beBytes (x / 256) w ++ [x % 256]

/-- Little-endian bytes of `x`, exactly `w` of them: the memory bytes of a
`uint64_t` on the x86 targets the client is built for. -/
def leBytes : Nat → Nat → List Nat
  | _, 0 => []
  | x, w + 1 => x % 256 :: leBytes (x / 256) w

/-- SHA-1 (FIPS 180-4) padding: `0x80`, zeros to 56 mod 64, then the
64-bit big-endian bit length. -/
def sha1Pad (msg : List Nat) : List Nat :=
  msg ++ 128 :: List.replicate ((119 - msg.length % 64) % 64) 0 ++ beBytes (8 * msg.length) 8

/-- Big-endian 32-bit word from four bytes. -/
def beWord (b0 b1 b2 b3 : Nat) : Nat := ((b0 * 256 + b1) * 256 + b2) * 256 + b3

/-- Group a byte list into big-endian 32-bit words. -/
def bytesToWords : List Nat → List Nat
  | b0 :: b1 :: b2 :: b3 :: rest => beWord b0 b1 b2 b3 :: bytesToWords rest
  | _ => []

/-- Split a word list into 16-word blocks (fuel-driven so that the
definition evaluates inside the kernel). -/
def wordChunks : Nat → List Nat → List (List Nat)
  | 0, _ => []
  | _ + 1, [] => []
  | fuel + 1, ws => ws.take 16 :: wordChunks fuel (ws.drop 16)

/-- Extend the 16 words of a block to the 80-entry message schedule. -/
def sha1Extend : Nat → List Nat → List Nat
  | 0, ws => ws
  | f + 1, ws =>
    let n := ws.length
    sha1Extend f (ws ++ [rotl32 1 ((ws.getD (n - 3) 0) ^^^ (ws.getD (n - 8) 0) ^^^
      (ws.getD (n - 14) 0) ^^^ (ws.getD (n - 16) 0))])

/-- The SHA-1 round function. -/
def sha1F (i b c d : Nat) : Nat :=
  if i < 20 then (b &&& c) ||| ((b ^^^ 4294967295) &&& d)
  else if i < 40 then b ^^^ c ^^^ d
  else if i < 60 then (b &&& c) ||| (b &&& d) ||| (c &&& d)
  else b ^^^ c ^^^ d

/-- The SHA-1 round constants. -/
def sha1K (i : Nat) : Nat :=
  if i < 20 then 1518500249
  else if i < 40 then 1859775393
  else if i < 60 then 2400959708
  else 3395469782

/-- The five 32-bit working registers of the SHA-1 compression function. -/
structure SHA1State where
  a : Nat
  b : Nat
  c : Nat
  d : Nat
  e : Nat

/-- Run the 80 SHA-1 rounds over the message schedule. -/
def sha1Rounds (i : Nat) (ws : List Nat) (st : SHA1State) : SHA1State :=
  match ws with
  | [] => st
  | w :: rest =>
    let t := (rotl32 5 st.a + sha1F i st.b st.c st.d + st.e + sha1K i + w) % WORD
    sha1Rounds (i + 1) rest ⟨t, st.a, rotl32 30 st.b, st.c, st.d⟩

/-- One SHA-1 compression step: rounds plus feed-forward addition. -/
def sha1Block (h : SHA1State) (blockWords : List Nat) : SHA1State :=
  let st := sha1Rounds 0 (sha1Extend 64 blockWords) h
  ⟨(h.a + st.a) % WORD, (h.b + st.b) % WORD, (h.c + st.c) % WORD,
   (h.d + st.d) % WORD, (h.e + st.e) % WORD⟩

/-- The SHA-1 initial chaining value. -/
def sha1Init : SHA1State := ⟨1732584193, 4023233417, 2562383102, 271733878, 3285377520⟩

/-- Binary SHA-1 of a byte sequence (`sha1_raw` / OpenSSL `SHA1`): a
20-byte digest. -/
def sha1Bytes (msg : List Nat) : List Nat :=
  let padded := sha1Pad msg
  let h := (wordChunks padded.length (bytesToWords padded)).foldl sha1Block sha1Init
  beBytes h.a 4 ++ beBytes h.b 4 ++ beBytes h.c 4 ++ beBytes h.d 4 ++ beBytes h.e 4

example : sha1Bytes (strBytes "abc") =
    [0xa9, 0x99, 0x3e, 0x36, 0x47, 0x06, 0x81, 0x6a, 0xba, 0x3e,
     0x25, 0x71, 0x78, 0x50, 0xc2, 0x6c, 0x9c, 0xd0, 0xd8, 0x9d] := by decide

example : sha1Bytes [] =
    [0xda, 0x39, 0xa3, 0xee, 0x5e, 0x6b, 0x4b, 0x0d, 0x32, 0x55,
     0xbf, 0xef, 0x95, 0x60, 0x18, 0x90, 0xaf, 0xd8, 0x07, 0x09] := by decide

/-! ## The difficulty predicate (`check_difficulty`) -/

/-- The byte loop of `check_difficulty`: scan `n` digest bytes starting at
index `i`, answering `some false` at the first nonzero byte (the C++ loop
returns early) and `none` if an index falls outside the digest — the
`Option` models the raw `hash[i]` array access. -/
def leadBytesZero (digest : List Nat) : Nat → Nat → Option Bool
  | 0, _ => some true
  | n + 1, i =>
    match digest.get? i with
    | none => none
    | some b => if b ≠ 0 then some false else leadBytesZero digest n (i + 1)

/-- `check_difficulty(hash, difficulty)` from `ExasolClient.cpp`:
`full_bytes = difficulty / 2` whole bytes must be zero; if the difficulty
is odd the high nibble of byte `difficulty / 2` must also be zero.
Digest indexing is `Option`-returning (`none` = out-of-bounds access). -/
def checkDifficulty (digest : List Nat) (difficulty : Nat) : Option Bool :=
  match leadBytesZero digest (difficulty / 2) 0 with
  | none => none
  | some false => some false
  | some true =>
    if difficulty % 2 = 1 then
      match digest.get? (difficulty / 2) with
      | none => none
      | some b => some (b &&& 240 == 0)
    else some true

/-- The `j`-th hex nibble of a digest (nibble 0 is the high nibble of
byte 0), the unit the spec's `leading_zero_nibbles` counts in. -/
def nibble (digest : List Nat) (j : Nat) : Nat :=
  if j % 2 = 0 then digest.getD (j / 2) 0 / 16 else digest.getD (j / 2) 0 % 16

/-! ## The proof-of-work search -/

/-- The per-worker counter of `pow_worker`: starts at the worker's thread
id and advances by the stride (the worker count), as the 64-bit register
`counter` does — addition modulo `2 ^ 64`. `workerCounter tid stride k`
is the worker's `k`-th probed nonce. -/
def workerCounter (tid stride : Nat) : Nat → Nat
  | 0 => tid % U64
  | k + 1 => (workerCounter tid stride k + stride) % U64

/-- The data hashed by one probe of the `POW` handler:
`authdata + std::to_string(counter)` — authdata followed by the decimal
ASCII text of the counter. -/
def powHash (authdata : String) (c : Nat) : List Nat :=
  sha1Bytes (strBytes (authdata ++ Nat.repr c))

/-- One probe of the `POW` worker: hash the decimal-suffixed data and test
the difficulty predicate. -/
def powCheck (authdata : String) (difficulty c : Nat) : Bool :=
  decide (checkDifficulty (powHash authdata c) difficulty = some true)

/-- Worker `tid`'s `k`-th probe is its first success: the probe passes and
every earlier probe of the same worker failed. A `pow_worker` returns at
its first passing candidate, so this is the only nonce it can publish. -/
def firstHitAt (authdata : String) (difficulty W tid k : Nat) : Prop :=
  powCheck authdata difficulty (workerCounter tid W k) = true ∧
  ∀ j < k, powCheck authdata difficulty (workerCounter tid W j) = false

/-- The result relation of the joined `POW` solver with `W` workers:
`n` can be the published nonce iff it is the first success of one of the
workers. The winning worker is whichever acquires `result_mutex` first
with `found` still false, so any worker's first hit is a possible result;
the guarded `if (!found)` write makes the slot single-writer. -/
def powPublishes (authdata : String) (difficulty W n : Nat) : Prop :=
  ∃ tid, tid < W ∧ ∃ k, firstHitAt authdata difficulty W tid k ∧
    n = workerCounter tid W k

/-! ## The precomputed-state search (`POW2`) -/

/-- `SHA1Precomputed::hash_counter`: clone the state holding absorbed
`authdata`, then `SHA1_Update(&ctx, &counter, sizeof(counter))` absorbs
the raw 8 little-endian memory bytes of the 64-bit counter (x86), and
finalise. By the streaming contract of the incremental API this equals
the one-shot SHA-1 of authdata's bytes followed by those 8 bytes. -/
def hashCounter (authdata : String) (counter : Nat) : List Nat :=
  sha1Bytes (strBytes authdata ++ leBytes (counter % U64) 8)

/-- One probe of the `POW2` worker: the precomputed-state digest tested
against the difficulty predicate. -/
def pow2Check (authdata : String) (difficulty c : Nat) : Bool :=
  decide (checkDifficulty (hashCounter authdata c) difficulty = some true)

/-- Worker `tid`'s first success on the `POW2` probe path. -/
def firstHit2At (authdata : String) (difficulty W tid k : Nat) : Prop :=
  pow2Check authdata difficulty (workerCounter tid W k) = true ∧
  ∀ j < k, pow2Check authdata difficulty (workerCounter tid W j) = false

/-- The result relation of the joined `POW2` solver. The published wire
value is `std::to_string` of the winning counter — its decimal text —
even though the tested digest absorbed the counter's raw bytes. -/
def pow2Publishes (authdata : String) (difficulty W n : Nat) : Prop :=
  ∃ tid, tid < W ∧ ∃ k, firstHit2At authdata difficulty W tid k ∧
    n = workerCounter tid W k

/-! ## The protocol state machine (`ExasolClient::communicate`) -/

/-- Lowercase hex digit, as produced by `std::hex` with `setfill('0')`. -/
def hexChar (n : Nat) : Char := Char.ofNat (if n < 10 then 48 + n else 87 + n)

/-- Lowercase hex encoding of a byte list (two digits per byte). -/
def bytesToHex : List Nat → List Char
  | [] => []
  | b :: rest => hexChar (b / 16 % 16) :: hexChar (b % 16) :: bytesToHex rest

/-- `ExasolClient::sha1_hex`: lowercase 40-hex-character SHA-1 of a
string. -/
def sha1Hex (s : String) : String := ⟨bytesToHex (sha1Bytes (strBytes s))⟩

/-- The whitespace characters along which `istringstream` token
extraction splits a received command line. -/
def isWS (c : Char) : Bool := c = ' ' || c = '\t' || c = '\r' || c = '\n'

/-- Character-list worker for `tokenize`. -/
def tokensAux : List Char → List Char → List String
  | [], acc => if acc.isEmpty then [] else [String.mk acc.reverse]
  | c :: rest, acc =>
    if isWS c then
      if acc.isEmpty then tokensAux rest []
      else String.mk acc.reverse :: tokensAux rest []
    else tokensAux rest (c :: acc)

/-- Split a received line into whitespace-separated tokens, as the
`while (iss >> token)` loop does (empty tokens never occur; the trailing
trim in the source does not change the token list). -/
def tokenize (s : String) : List String := tokensAux s.data []

/-- `std::isspace` for the default locale, as used by `std::stoi`. -/
def isSpaceC (c : Char) : Bool :=
  c = ' ' || c = '\t' || c = '\n' || c = Char.ofNat 11 || c = Char.ofNat 12 || c = '\r'

/-- ASCII decimal digit test. -/
def isDigitC (c : Char) : Bool := '0' ≤ c && c ≤ '9'

/-- Accumulate a run of leading decimal digits. -/
def digitsAcc : List Char → Nat → Nat
  | c :: rest, acc => if isDigitC c then digitsAcc rest (acc * 10 + (c.toNat - 48)) else acc
  | [], acc => acc

/-- The leading digit run of a character list, `none` when the first
character is not a digit. -/
def leadingNat : List Char → Option Nat
  | c :: rest => if isDigitC c then some (digitsAcc rest (c.toNat - 48)) else none
  | [] => none

/-- `std::stoi`: skip leading whitespace, optional sign, then at least
one decimal digit (trailing junk ignored); `none` models the
`std::invalid_argument` exception thrown when no digits are found.
(Overflow, which would throw `std::out_of_range`, does not occur on the
inputs considered here.) -/
def stoiOpt (s : String) : Option Int :=
  match s.data.dropWhile isSpaceC with
  | '+' :: rest => (leadingNat rest).map Int.ofNat
  | '-' :: rest => (leadingNat rest).map (fun n => -(n : Int))
  | rest => (leadingNat rest).map Int.ofNat

/-- The mutable session variables of `ExasolClient::communicate`: the
stored `authdata` string and the `authenticated` flag. -/
structure SessionState where
  authdata : String
  authenticated : Bool
deriving DecidableEq, Repr

/-- The effect of handling one received line on the read loop:
`next` = reply (if any) is written and the loop continues with the new
state; `stop` = reply (if any) is written and the loop `break`s;
`fault` = an exception escapes to the `catch` outside the loop, so no
reply is written and `communicate` returns. -/
inductive StepResult where
  | next (st : SessionState) (reply : Option String)
  | stop (st : SessionState) (reply : Option String)
  | fault
deriving DecidableEq, Repr

/-- The reply of an identity-verb branch: when authenticated with a
challenge present, the challenge hash and configured answer; otherwise
the branch's error message (`errNoun` is `"authentication"` for
NAME/MAILNUM/MAIL1 and `"authdata"` for the remaining verbs, exactly as
the source strings read). -/
def identityReply (st : SessionState) (verb answer errNoun : String)
    (rest : List String) : StepResult :=
  if st.authenticated = true ∧ 1 ≤ rest.length then
    .next st (some (sha1Hex (st.authdata ++ rest.getD 0 "") ++ " " ++ answer ++ "\n"))
  else
    .next st (some ("ERROR: " ++ verb ++ " requires " ++ errNoun ++ "\n"))

/-- One iteration of the `while (true)` read loop of
`ExasolClient::communicate` on a received line. `solver`/`solver2` stand
for the joined nonce result of the `POW`/`POW2` search (the solver
threads are joined before the reply is written, so at protocol level the
search is a function of authdata and difficulty; `powPublishes` /
`pow2Publishes` characterise which nonces it can yield). The branch
structure, replies, and state updates mirror the source's `else if`
chain. -/
def step (solver solver2 : String → Int → String) (st : SessionState)
    (line : String) : StepResult :=
  match tokenize line with
  | [] => .next st none
  | verb :: rest =>
    if verb = "HELO" then .next st (some "EHLO\n")
    else if verb = "ERROR" then .stop st none
    else if verb = "POW" then
      if 2 ≤ rest.length then
        match stoiOpt (rest.getD 1 "") with
        | none => .fault
        | some d => .next ⟨rest.getD 0 "", true⟩ (some (solver (rest.getD 0 "") d ++ "\n"))
      else .next st (some "POW_ERROR: Insufficient arguments\n")
    else if verb = "POW2" then
      if 2 ≤ rest.length then
        match stoiOpt (rest.getD 1 "") with
        | none => .fault
        | some d => .next ⟨rest.getD 0 "", true⟩ (some (solver2 (rest.getD 0 "") d ++ "\n"))
      else .next st (some "POW2_ERROR: Insufficient arguments\n")
    else if verb = "END" then .next st (some "OK\n")
    else if verb = "NAME" then identityReply st "NAME" "Deepak Shivanandham" "authentication" rest
    else if verb = "MAILNUM" then identityReply st "MAILNUM" "1" "authentication" rest
    else if verb = "MAIL1" then
      identityReply st "MAIL1" "deepakshivanandham@hotmail.com" "authentication" rest
    else if verb = "SKYPE" then identityReply st "SKYPE" "NA" "authdata" rest
    else if verb = "BIRTHDATE" then identityReply st "BIRTHDATE" "06.02.1991" "authdata" rest
    else if verb = "COUNTRY" then identityReply st "COUNTRY" "india" "authdata" rest
    else if verb = "ADDRNUM" then identityReply st "ADDRNUM" "2" "authdata" rest
    else if verb = "ADDRLINE1" then
      identityReply st "ADDRLINE1" "25, GAJALAKSHMI NAGAR 1st CROSS STREET" "authdata" rest
    else if verb = "ADDRLINE2" then
      identityReply st "ADDRLINE2" "CHROMPET,CHENNAI, TAMILNADU" "authdata" rest
    else .next st (some "ERROR Unknown command\n")

/-- Drive the read loop over a list of received lines, collecting the
replies written to the transport. A `stop` outcome breaks the loop and a
`fault` outcome aborts `communicate`, so in both cases the remaining
lines are never read. -/
def runSession (solver solver2 : String → Int → String) (st : SessionState) :
    List String → List String
  | [] => []
  | line :: rest =>
    match step solver solver2 st line with
    | .next st2 r => r.toList ++ runSession solver solver2 st2 rest
    | .stop _ r => r.toList
    | .fault => []

/-- A fixed stand-in solver result used to instantiate the oracle
parameters in concrete counterexamples. -/
def oracleSeven : String → Int → String := fun _ _ => "7"

example : tokenize "  POW   abc  41 " = ["POW", "abc", "41"] := by decide

example : stoiOpt " 41x" = some 41 := by decide

example : stoiOpt "xyz" = none := by decide

/-! ## Helper lemmas about the difficulty predicate -/

theorem leadBytesZero_eq (digest : List Nat) :
    ∀ n i, i + n ≤ digest.length →
      leadBytesZero digest n i = some (decide (∀ k < n, digest.get? (i + k) = some 0)) := by
  intro n
  induction n with
  | zero => intro i _; simp [leadBytesZero]
  | succ m ih =>
    intro i h
    have hi : i < digest.length := by omega
    cases hg : digest.get? i with
    | none => exact absurd (List.get?_eq_none.mp hg) (by omega)
    | some b =>
      by_cases hb : b = 0
      · subst hb
        have hiff : (∀ k < m, digest.get? (i + 1 + k) = some 0) ↔
            (∀ k < m + 1, digest.get? (i + k) = some 0) := by
          constructor
          · intro hall k hk
            rcases Nat.eq_zero_or_pos k with rfl | hpos
            · simpa using hg
            · have hh := hall (k - 1) (by omega)
              have he : i + 1 + (k - 1) = i + k := by omega
              rwa [he] at hh
          · intro hall k hk
            have hh := hall (k + 1) (by omega)
            have he : i + (k + 1) = i + 1 + k := by omega
            rwa [he] at hh
        simp only [leadBytesZero, hg]
        rw [if_neg (by simp)]
        rw [ih (i + 1) (by omega), decide_eq_decide.mpr hiff]
      · have hnot : ¬ (∀ k < m + 1, digest.get? (i + k) = some 0) := by
          intro hall
          have h0 := hall 0 (by omega)
          rw [Nat.add_zero, hg] at h0
          exact hb (Option.some.inj h0)
        simp only [leadBytesZero, hg]
        rw [if_pos hb, decide_eq_false hnot]

theorem get?_zero_iff (l : List Nat) (k : Nat) (hk : k < l.length) :
    l.get? k = some 0 ↔ l.getD k 0 = 0 := by
  rw [List.get?_eq_getElem?, List.getD_eq_getElem?_getD, List.getElem?_eq_getElem hk]
  simp

theorem nibbles_zero_iff (digest : List Nat) (D : Nat) :
    (∀ j < D, nibble digest j = 0) ↔
      ((∀ k < D / 2, digest.getD k 0 = 0) ∧
       (D % 2 = 1 → digest.getD (D / 2) 0 / 16 = 0)) := by
  constructor
  · intro h
    constructor
    · intro k hk
      have h1 := h (2 * k) (by omega)
      have h2 := h (2 * k + 1) (by omega)
      rw [nibble, if_pos (by omega)] at h1
      rw [nibble, if_neg (by omega)] at h2
      have e1 : 2 * k / 2 = k := by omega
      have e2 : (2 * k + 1) / 2 = k := by omega
      rw [e1] at h1
      rw [e2] at h2
      omega
    · intro hodd
      have h1 := h (2 * (D / 2)) (by omega)
      rw [nibble, if_pos (by omega)] at h1
      have e1 : 2 * (D / 2) / 2 = D / 2 := by omega
      rwa [e1] at h1
  · intro hc j hj
    obtain ⟨h1, h2⟩ := hc
    rw [nibble]
    rcases Nat.lt_or_ge (j / 2) (D / 2) with hlt | hge
    · have hz := h1 (j / 2) hlt
      rw [hz]
      split <;> norm_num
    · have hj2 : j / 2 = D / 2 ∧ D % 2 = 1 ∧ j % 2 = 0 := by omega
      rw [if_pos hj2.2.2, hj2.1]
      exact h2 hj2.2.1

theorem land240_eq : ∀ b < 256, ((b &&& 240 == 0) = decide (b / 16 = 0)) := by decide

theorem checkDifficulty_some_true_iff (digest : List Nat) (D : Nat)
    (hD : D ≤ 40) (hlen : digest.length = 20) (hbytes : ∀ b ∈ digest, b < 256) :
    checkDifficulty digest D = some true ↔ ∀ j < D, nibble digest j = 0 := by
  rw [nibbles_zero_iff]
  unfold checkDifficulty
  rw [leadBytesZero_eq digest (D / 2) 0 (by omega)]
  by_cases hA : ∀ k < D / 2, digest.get? (0 + k) = some 0
  · rw [decide_eq_true hA]
    have hA2 : ∀ k < D / 2, digest.getD k 0 = 0 := by
      intro k hk
      have hh := hA k hk
      rw [Nat.zero_add] at hh
      exact (get?_zero_iff digest k (by omega)).mp hh
    dsimp only
    by_cases hodd : D % 2 = 1
    · rw [if_pos hodd]
      have hflt : D / 2 < digest.length := by omega
      rw [List.get?_eq_getElem?, List.getElem?_eq_getElem hflt]
      have hb : digest[D / 2] < 256 := hbytes _ (digest.getElem_mem hflt)
      have hgd : digest.getD (D / 2) 0 = digest[D / 2] := by
        rw [List.getD_eq_getElem?_getD, List.getElem?_eq_getElem hflt]
        rfl
      dsimp only
      rw [land240_eq digest[D / 2] hb]
      constructor
      · intro hsome
        refine ⟨hA2, fun _ => ?_⟩
        rw [hgd]
        exact of_decide_eq_true (Option.some.inj hsome)
      · intro hconj
        have := hconj.2 hodd
        rw [hgd] at this
        rw [decide_eq_true this]
    · rw [if_neg hodd]
      constructor
      · intro _
        exact ⟨hA2, fun hc => absurd hc hodd⟩
      · intro _
        rfl
  · rw [decide_eq_false hA]
    dsimp only
    constructor
    · intro hfalse
      exact absurd hfalse (by simp)
    · intro hconj
      exfalso
      apply hA
      intro k hk
      rw [Nat.zero_add]
      exact (get?_zero_iff digest k (by omega)).mpr (hconj.1 k hk)

theorem checkDifficulty_isSome (digest : List Nat) (D : Nat)
    (hD : D ≤ 40) (hlen : digest.length = 20) :
    (checkDifficulty digest D).isSome = true := by
  unfold checkDifficulty
  rw [leadBytesZero_eq digest (D / 2) 0 (by omega)]
  cases hA : decide (∀ k < D / 2, digest.get? (0 + k) = some 0) with
  | false => rfl
  | true =>
    dsimp only
    by_cases hodd : D % 2 = 1
    · rw [if_pos hodd]
      have hflt : D / 2 < digest.length := by omega
      rw [List.get?_eq_getElem?, List.getElem?_eq_getElem hflt]
      rfl
    · rw [if_neg hodd]
      rfl

/-! ## Helper lemmas about the SHA-1 digest and the worker lattice -/

theorem beBytes_length (x w : Nat) : (beBytes x w).length = w := by
  induction w generalizing x with
  | zero => rfl
  | succ m ih => simp [beBytes, ih]

theorem beBytes_lt (x w : Nat) : ∀ b ∈ beBytes x w, b < 256 := by
  induction w generalizing x with
  | zero => intro b hb; simp [beBytes] at hb
  | succ m ih =>
    intro b hb
    simp only [beBytes, List.mem_append, List.mem_singleton] at hb
    rcases hb with hb | rfl
    · exact ih _ b hb
    · omega

theorem sha1Bytes_length (msg : List Nat) : (sha1Bytes msg).length = 20 := by
  unfold sha1Bytes
  simp [beBytes_length]

theorem append_lt {l1 l2 : List Nat} (h1 : ∀ b ∈ l1, b < 256) (h2 : ∀ b ∈ l2, b < 256) :
    ∀ b ∈ l1 ++ l2, b < 256 := by
  intro b hb
  rcases List.mem_append.mp hb with h | h
  exacts [h1 b h, h2 b h]

theorem sha1Bytes_lt (msg : List Nat) : ∀ b ∈ sha1Bytes msg, b < 256 := by
  unfold sha1Bytes
  exact append_lt (append_lt (append_lt (append_lt (beBytes_lt _ _) (beBytes_lt _ _))
    (beBytes_lt _ _)) (beBytes_lt _ _)) (beBytes_lt _ _)

theorem workerCounter_closed (tid stride : Nat) :
    ∀ k, workerCounter tid stride k = (tid + k * stride) % U64 := by
  intro k
  induction k with
  | zero => simp [workerCounter]
  | succ m ih =>
    rw [workerCounter, ih, Nat.mod_add_mod]
    congr 1
    ring

/-! ## Claims -/

/-- C3: for a 20-byte digest and a difficulty `D ≤ 40`, `check_difficulty`
returns true exactly when the first `D` hex nibbles of the digest are
zero (whole leading bytes zero, plus the high nibble of byte `D / 2` when
`D` is odd). -/
theorem C3_check_difficulty_iff_leading_zero_nibbles
    (digest : List Nat) (D : Nat) (hD : D ≤ 40) (hlen : digest.length = 20)
    (hbytes : ∀ b ∈ digest, b < 256) :
    checkDifficulty digest D = some true ↔ ∀ j < D, nibble digest j = 0 :=
  checkDifficulty_some_true_iff digest D hD hlen hbytes

theorem C3_witness :
    checkDifficulty (List.replicate 20 0) 3 = some true :=
  (C3_check_difficulty_iff_leading_zero_nibbles (List.replicate 20 0) 3
    (by decide) (by decide) (by decide)).mpr (by decide)

/-- C10: for every difficulty `D ≤ 40` and every 20-byte digest,
`check_difficulty` touches only in-bounds digest indices, so the
`Option`-returning embedding never yields `none`; `D = 40` is the largest
such difficulty, as at `D = 41` the odd-nibble test indexes byte 20
(reached on the all-zero digest). -/
theorem C10_difficulty_bounds_digest_access :
    (∀ (digest : List Nat) (D : Nat), D ≤ 40 → digest.length = 20 →
      (checkDifficulty digest D).isSome = true) ∧
    checkDifficulty (List.replicate 20 0) 41 = none :=
  ⟨fun digest D hD hlen => checkDifficulty_isSome digest D hD hlen, by decide⟩

theorem C10_witness : (checkDifficulty (List.replicate 20 0) 40).isSome = true :=
  C10_difficulty_bounds_digest_access.1 (List.replicate 20 0) 40 (by decide) (by decide)

/-- C1: any nonce the `POW` solver can publish satisfies the difficulty
predicate on the SHA-1 of authdata followed by the decimal text of the
nonce — both as `check_difficulty` returning true and as the first `D`
hex nibbles of the digest being zero. -/
theorem C1_pow_nonce_meets_difficulty (authdata : String) (D W n : Nat)
    (hD : D ≤ 40) (hpub : powPublishes authdata D W n) :
    checkDifficulty (sha1Bytes (strBytes (authdata ++ Nat.repr n))) D = some true ∧
    ∀ j < D, nibble (sha1Bytes (strBytes (authdata ++ Nat.repr n))) j = 0 := by
  obtain ⟨tid, htid, k, ⟨hhit, hprev⟩, hn⟩ := hpub
  rw [← hn] at hhit
  have hchk : checkDifficulty (sha1Bytes (strBytes (authdata ++ Nat.repr n))) D = some true :=
    of_decide_eq_true hhit
  exact ⟨hchk,
    (checkDifficulty_some_true_iff _ D hD (sha1Bytes_length _) (sha1Bytes_lt _)).mp hchk⟩

theorem C1_witness :
    powPublishes "abc" 1 1 0 ∧
    checkDifficulty (sha1Bytes (strBytes ("abc" ++ Nat.repr 0))) 1 = some true := by
  have hpub : powPublishes "abc" 1 1 0 :=
    ⟨0, by omega, 0, ⟨by decide, by intro j hj; omega⟩, by decide⟩
  exact ⟨hpub, (C1_pow_nonce_meets_difficulty "abc" 1 1 0 (by omega) hpub).1⟩

/-- C8 fails as stated: at difficulty 0 with two workers, worker 1's
first candidate is the nonce 1 and passes the (trivial) predicate, so the
solver can publish `"1"`, not `"0"` — the winner of the mutex race
determines the result. -/
theorem C8_counterexample : powPublishes "abc" 0 2 1 ∧ Nat.repr 1 ≠ "0" :=
  ⟨⟨1, by omega, 0, ⟨by decide, by intro j hj; omega⟩, by decide⟩, by decide⟩

/-- C8 amended: at difficulty 0 every probe passes, so every worker's
first candidate (its thread id) is an immediate hit; with a single worker
the solver returns `"0"`, and in general the result is the decimal text
of whichever worker wins the publication race. -/
theorem C8_amended_zero_difficulty :
    (∀ (authdata : String) (W tid : Nat), tid < W → firstHitAt authdata 0 W tid 0) ∧
    (∀ (authdata : String) (n : Nat), powPublishes authdata 0 1 n → Nat.repr n = "0") := by
  have hzero : ∀ (authdata : String) (c : Nat), powCheck authdata 0 c = true :=
    fun a c => decide_eq_true rfl
  constructor
  · intro a W tid _
    exact ⟨hzero a _, by intro j hj; omega⟩
  · intro a n hpub
    obtain ⟨tid, htid, k, ⟨hhit, hprev⟩, hn⟩ := hpub
    have htid0 : tid = 0 := by omega
    have hk0 : k = 0 := by
      by_contra hk
      have hfalse := hprev 0 (Nat.pos_of_ne_zero hk)
      rw [hzero] at hfalse
      exact Bool.noConfusion hfalse
    subst htid0
    subst hk0
    rw [hn]
    decide

theorem C8_witness :
    firstHitAt "x" 0 2 1 0 ∧ Nat.repr 0 = "0" :=
  ⟨C8_amended_zero_difficulty.1 "x" 2 1 (by omega),
   C8_amended_zero_difficulty.2 "x" 0
     ⟨0, by omega, 0, ⟨decide_eq_true rfl, by intro j hj; omega⟩, by decide⟩⟩

/-- C9 fails as stated: with the 64-bit wraparound the claim itself
appeals to, the workers' candidate sets are not pairwise disjoint when
the worker count is not a power of two — with `W = 3`, worker 0's probe
number 6148914691236517206 is the nonce 2, worker 2's very first
candidate. -/
theorem C9_counterexample :
    workerCounter 0 3 6148914691236517206 = 2 ∧ workerCounter 2 3 0 = 2 ∧ 0 ≠ 2 := by
  refine ⟨?_, by decide, by omega⟩
  rw [workerCounter_closed]
  decide

/-- C9 amended: worker `i`'s `k`-th probe is `(i + k·W) mod 2^64`, so the
workers do scan the lattices `i, i+W, i+2W, …` in order; as long as no
64-bit wraparound occurs, candidates of distinct workers are pairwise
distinct and every 64-bit value `n` is probed by exactly worker `n mod W`
(at step `n / W`). Disjointness after wraparound holds only for `W` a
power of two. -/
theorem C9_amended_lattice :
    (∀ tid stride k : Nat, workerCounter tid stride k = (tid + k * stride) % U64) ∧
    (∀ W i j k l : Nat, i < W → j < W → i ≠ j →
      i + k * W < U64 → j + l * W < U64 →
      workerCounter i W k ≠ workerCounter j W l) ∧
    (∀ W n : Nat, 0 < W → n < U64 → workerCounter (n % W) W (n / W) = n) := by
  refine ⟨fun tid stride k => workerCounter_closed tid stride k, ?_, ?_⟩
  · intro W i j k l hi hj hij hk hl heq
    apply hij
    rw [workerCounter_closed, workerCounter_closed,
      Nat.mod_eq_of_lt hk, Nat.mod_eq_of_lt hl] at heq
    have h1 : (i + k * W) % W = (j + l * W) % W := by rw [heq]
    rwa [Nat.add_mul_mod_self_right, Nat.add_mul_mod_self_right,
      Nat.mod_eq_of_lt hi, Nat.mod_eq_of_lt hj] at h1
  · intro W n hW hn
    rw [workerCounter_closed, Nat.mod_add_div' n W, Nat.mod_eq_of_lt hn]

theorem C9_witness :
    workerCounter 1 3 2 = (1 + 2 * 3) % U64 ∧
    workerCounter 0 3 1 ≠ workerCounter 1 3 1 ∧
    workerCounter (11 % 3) 3 (11 / 3) = 11 :=
  ⟨C9_amended_lattice.1 1 3 2,
   C9_amended_lattice.2.1 3 0 1 1 1 (by omega) (by omega) (by omega) (by decide) (by decide),
   C9_amended_lattice.2.2 3 11 (by omega) (by decide)⟩

/-- C2 fails on the code: `hash_counter` absorbs the raw 8 little-endian
bytes of the counter, not its decimal text, so the probe digest differs
from `sha1(authdata || decimal(c))` (shown at `authdata = ""`, `c = 1`);
moreover the first nonce the single-worker `POW2` search publishes at
difficulty 1 on empty authdata is 0, whose raw-byte digest passes the
predicate while `sha1("0")` fails it. -/
theorem C2_pow2_hashes_raw_counter_bytes :
    hashCounter "" 1 ≠ sha1Bytes (strBytes ("" ++ Nat.repr 1)) ∧
    leBytes (1 % U64) 8 ≠ strBytes (Nat.repr 1) ∧
    pow2Publishes "" 1 1 0 ∧
    checkDifficulty (sha1Bytes (strBytes ("" ++ Nat.repr 0))) 1 = some false :=
  ⟨by decide, by decide,
   ⟨0, by omega, 0, ⟨by decide, by intro j hj; omega⟩, by decide⟩, by decide⟩

/-- C4 fails as stated: the `POW` branch performs no difficulty range
check and the string `POW_ERROR: Invalid difficulty` exists nowhere in
the code; at difficulty 41 the command proceeds to the solver (here a
stand-in returning `"7"`), the nonce is replied and the session becomes
authenticated rather than staying unauthenticated. -/
theorem C4_counterexample :
    step oracleSeven oracleSeven ⟨"", false⟩ "POW abc 41" =
      .next ⟨"abc", true⟩ (some "7\n") ∧
    some "7\n" ≠ some "POW_ERROR: Invalid difficulty\n" :=
  ⟨by decide, by decide⟩

/-- C4 amended: a `POW` command with difficulty 41 (out of the spec's
range) is not rejected: for every solver result, the client stores the
authdata, replies the solver's nonce, and marks the session
authenticated. -/
theorem C4_amended_no_range_check (solver solver2 : String → Int → String)
    (st : SessionState) :
    step solver solver2 st "POW abc 41" =
      .next ⟨"abc", true⟩ (some (solver "abc" 41 ++ "\n")) := rfl

/-- C5 fails as stated: only NAME, MAILNUM and MAIL1 reply
`requires authentication`; SKYPE (and BIRTHDATE, COUNTRY, ADDRNUM,
ADDRLINE1, ADDRLINE2) reply `requires authdata`. -/
theorem C5_counterexample :
    step oracleSeven oracleSeven ⟨"", false⟩ "SKYPE x" =
      .next ⟨"", false⟩ (some "ERROR: SKYPE requires authdata\n") ∧
    "ERROR: SKYPE requires authdata\n" ≠ "ERROR: SKYPE requires authentication\n" :=
  ⟨by decide, by decide⟩

/-- C5 amended: every identity verb received while unauthenticated is
answered with an error and causes no state transition; the message is
`ERROR: <verb> requires authentication` for NAME, MAILNUM and MAIL1 and
`ERROR: <verb> requires authdata` for the remaining six verbs. -/
theorem C5_amended_auth_gate (solver solver2 : String → Int → String)
    (st : SessionState) (h : st.authenticated = false) :
    step solver solver2 st "NAME x" = .next st (some "ERROR: NAME requires authentication\n") ∧
    step solver solver2 st "MAILNUM x" =
      .next st (some "ERROR: MAILNUM requires authentication\n") ∧
    step solver solver2 st "MAIL1 x" = .next st (some "ERROR: MAIL1 requires authentication\n") ∧
    step solver solver2 st "SKYPE x" = .next st (some "ERROR: SKYPE requires authdata\n") ∧
    step solver solver2 st "BIRTHDATE x" =
      .next st (some "ERROR: BIRTHDATE requires authdata\n") ∧
    step solver solver2 st "COUNTRY x" = .next st (some "ERROR: COUNTRY requires authdata\n") ∧
    step solver solver2 st "ADDRNUM x" = .next st (some "ERROR: ADDRNUM requires authdata\n") ∧
    step solver solver2 st "ADDRLINE1 x" =
      .next st (some "ERROR: ADDRLINE1 requires authdata\n") ∧
    step solver solver2 st "ADDRLINE2 x" =
      .next st (some "ERROR: ADDRLINE2 requires authdata\n") := by
  obtain ⟨a, auth⟩ := st
  simp only at h
  subst h
  exact ⟨rfl, rfl, rfl, rfl, rfl, rfl, rfl, rfl, rfl⟩

theorem C5_witness :
    step oracleSeven oracleSeven ⟨"", false⟩ "NAME x" =
      .next ⟨"", false⟩ (some "ERROR: NAME requires authentication\n") :=
  (C5_amended_auth_gate oracleSeven oracleSeven ⟨"", false⟩ rfl).1

/-- C6 fails as stated: the END branch does not `break` the read loop, so
after replying `OK` the client keeps reading — a HELO following END is
still answered. -/
theorem C6_counterexample :
    runSession oracleSeven oracleSeven ⟨"", false⟩ ["END", "HELO"] = ["OK\n", "EHLO\n"] ∧
    ("OK\n" :: ["EHLO\n"]) ≠ ["OK\n"] :=
  ⟨by decide, by decide⟩

/-- C6 amended: on END the client replies exactly `OK\n` and stays in its
current state; the read loop continues and subsequent commands are
processed — the session closes only on ERROR or transport EOF. -/
theorem C6_amended_end_continues (solver solver2 : String → Int → String)
    (st : SessionState) (rest : List String) :
    step solver solver2 st "END" = .next st (some "OK\n") ∧
    runSession solver solver2 st ("END" :: rest) =
      "OK\n" :: runSession solver solver2 st rest :=
  ⟨rfl, rfl⟩

/-- C7 fails as stated: a `POW` whose difficulty is not an integer makes
`std::stoi` throw; the exception is caught outside the read loop, so no
reply is sent but the session terminates — a following HELO (which alone
would be answered) is never read. -/
theorem C7_counterexample :
    runSession oracleSeven oracleSeven ⟨"", false⟩ ["POW abc xyz", "HELO"] = [] ∧
    runSession oracleSeven oracleSeven ⟨"", false⟩ ["HELO"] = ["EHLO\n"] :=
  ⟨by decide, by decide⟩

/-- C7 amended: a non-parsing difficulty argument aborts the session
(exception caught outside the loop: no reply, no further commands
processed), while an empty line is skipped with no reply and the session
continues. -/
theorem C7_amended_malformed_faults (solver solver2 : String → Int → String)
    (st : SessionState) (rest : List String) :
    step solver solver2 st "POW abc xyz" = .fault ∧
    runSession solver solver2 st ("POW abc xyz" :: rest) = [] ∧
    step solver solver2 st "" = .next st none ∧
    runSession solver solver2 st ("" :: rest) = runSession solver solver2 st rest :=
  ⟨rfl, rfl, rfl, rfl⟩

end Exasol
